import Mathlib

/-!
Verification of the Argus distributed test runner against its
natural-language specification.

The development shallowly embeds the Python modules
`utilities/test_collector.py`, `utilities/distributed_runner.py` and
`run_distributed_tests.py`:
pure computations become Lean functions, the Redis store and the external
`pytest` subprocess become explicit inputs (a list of observations, an
outcome value), exceptions become `Except`/sum-like inductives, and
Python `float` arithmetic on duration estimates is modelled exactly over `ℚ`.
-/

namespace Argus

/-! ## Test collector (`utilities/test_collector.py`) -/

/-- A collected test record, as produced by `TestCollector._extract_test_info`:
the dictionary fields that the collector's downstream operations consume. -/
structure TestRecord where
  test_id : String
  test_file : String
  test_name : String
  full_name : String
  class_name : Option String
  markers : List String
  deriving DecidableEq, Inhabited

/-- `TestCollector.estimate_test_duration`: base time 5.0 seconds, then the
sequence of independent `if` statements scaling by 3 (marker `slow`),
2 (`integration`), 1.5 (`web`) and 0.8 (`api`).  Python float arithmetic is
modelled exactly over `ℚ` (1.5 = 3/2, 0.8 = 4/5). -/
def estimate_test_duration (test : TestRecord) : ℚ :=
  let base_time : ℚ := 5
  let base_time := if test.markers.contains "slow" then base_time * 3 else base_time
  let base_time := if test.markers.contains "integration" then base_time * 2 else base_time
  let base_time := if test.markers.contains "web" then base_time * (3/2) else base_time
  let base_time := if test.markers.contains "api" then base_time * (4/5) else base_time
  base_time

/-- A distributed task dictionary as built by `TestCollector.create_tasks`. -/
structure Task where
  task_id : String
  test_file : String
  test_name : String
  full_name : String
  markers : List String
  priority : String
  timeout : Nat
  retry_count : Nat
  max_retries : Nat
  created_at : Option String
  deriving DecidableEq, Inhabited

/-- The task built from one record inside the loop of
`TestCollector.create_tasks`: the dictionary starts with `"timeout": 300`,
then `if "slow" in markers: timeout = 600`, then
`if "integration" in markers: timeout = 900` (two independent `if`s, in
this order). -/
def create_task (priority : String) (test : TestRecord) : Task :=
  let timeout := 300
  let timeout := if test.markers.contains "slow" then 600 else timeout
  let timeout := if test.markers.contains "integration" then 900 else timeout
  { task_id := test.test_id
    test_file := test.test_file
    test_name := test.test_name
    full_name := test.full_name
    markers := test.markers
    priority := priority
    timeout := timeout
    retry_count := 0
    max_retries := 2
    created_at := none }

/-- `TestCollector.create_tasks`: one task per collected record, in order. -/
def create_tasks (tests : List TestRecord) (priority : String) : List Task :=
  tests.map (create_task priority)

/-- Python's `needle in hay` substring test, on lists of characters:
true iff `needle` occurs contiguously in `hay` (the empty needle always
occurs). -/
def listStartsWith : List Char → List Char → Bool
  | [], _ => true
  | _ :: _, [] => false
  | a :: as, b :: bs => a == b && listStartsWith as bs

/-- Substring occurrence used by the Python `in` operator on strings. -/
def listContainsSub (needle : List Char) : List Char → Bool
  | [] => listStartsWith needle []
  | b :: bs => listStartsWith needle (b :: bs) || listContainsSub needle bs

/-- `needle in hay` for Python strings. -/
def pyInStr (needle hay : String) : Bool :=
  listContainsSub needle.data hay.data

/-- Python truthiness of an optional list argument (`if markers:`):
`None` and the empty list are falsy. -/
def truthyList (l : Option (List String)) : Bool :=
  match l with
  | none => false
  | some l => !l.isEmpty

/-- Python truthiness of an optional string argument (`if test_type:`):
`None` and the empty string are falsy. -/
def truthyStr (s : Option String) : Bool :=
  match s with
  | none => false
  | some s => !(s == "")

/-- `TestCollector._filter_tests`: first the marker filter (kept if any of
the requested markers is in the record's marker list), then the type filter
(kept if `test_type` is in the record's markers or a substring of its file
path); each filter applies only when its argument is truthy. -/
def filter_tests (tests : List TestRecord) (markers : Option (List String))
    (test_type : Option String) : List TestRecord :=
  let filtered := tests
  let filtered :=
    if truthyList markers then
      filtered.filter (fun t => (markers.getD []).any (fun m => t.markers.contains m))
    else filtered
  let filtered :=
    if truthyStr test_type then
      filtered.filter (fun t =>
        t.markers.contains (test_type.getD "") || pyInStr (test_type.getD "") t.test_file)
    else filtered
  filtered

/-- A worker's accumulator in `TestCollector.balance_tests`: the bucket of
assigned tests together with its accumulated estimated time. -/
structure WorkerBucket where
  tests : List TestRecord
  total_time : ℚ
  deriving DecidableEq, Inhabited

/-- Python's `min` over a list, by value, returning the index and value of the
first minimum (`min` keeps the earliest element on ties); `none` on the empty
list (where Python raises `ValueError`). -/
def minWithIdx : List ℚ → Option (Nat × ℚ)
  | [] => none
  | x :: xs =>
    match minWithIdx xs with
    | none => some (0, x)
    | some (j, v) => if x ≤ v then some (0, x) else some (j + 1, v)

/-- One step of the greedy loop in `TestCollector.balance_tests`: find the
worker with the least `total_time` (Python `min(workers, key=...)`, the first
minimal one), append the test to it and add the duration. -/
def assignMin (ws : List WorkerBucket) (t : TestRecord) (d : ℚ) : List WorkerBucket :=
  match minWithIdx (ws.map (·.total_time)) with
  | none => ws
  | some (j, _) =>
    let w := ws.getD j default
    ws.set j { tests := w.tests ++ [t], total_time := w.total_time + d }

/-- The sorted work list of `TestCollector.balance_tests`: each record paired
with its estimated duration, stable-sorted by duration in descending order
(Python `list.sort(key=..., reverse=True)`). -/
def sorted_test_durations (tests : List TestRecord) : List (TestRecord × ℚ) :=
  (tests.map (fun t => (t, estimate_test_duration t))).mergeSort
    (fun a b => decide (b.2 ≤ a.2))

/-- `TestCollector.balance_tests`: with no collected tests, `num_workers`
empty buckets; otherwise LPT greedy assignment of the descending-sorted
records to the currently least-loaded of `num_workers` buckets. -/
def balance_tests (tests : List TestRecord) (num_workers : Nat) : List (List TestRecord) :=
  if tests.isEmpty then List.replicate num_workers []
  else
    let workers := List.replicate num_workers ({ tests := [], total_time := 0 } : WorkerBucket)
    let final := (sorted_test_durations tests).foldl (fun ws td => assignMin ws td.1 td.2) workers
    final.map (·.tests)

/-! ## Distributed runner (`utilities/distributed_runner.py`) -/

/-- Outcome of one Redis operation, as seen through the `try/except` wrappers:
either a value or a raised exception carrying a message. -/
abbrev StoreRead (α : Type) := Except String α

/-- `DistributedTestRunner.get_queue_size`: `llen` on the task queue, with any
exception caught and turned into `0`. -/
def get_queue_size (read : StoreRead Nat) : Nat :=
  match read with
  | .ok n => n
  | .error _ => 0

/-- Outcome of one `lpop` on the result queue inside
`DistributedTestRunner.get_all_results`. -/
inductive PopOutcome where
  | item (payload : String)
  | empty
  | raised (msg : String)
  deriving DecidableEq

/-- The drain loop of `DistributedTestRunner.get_all_results`: pop until a
falsy read ends the loop and return the accumulated results, but any raised
store error aborts the whole `try` block and the `except` branch returns `[]`
(the results already popped in `acc` are discarded). -/
def drainResults : List PopOutcome → List String → List String
  | [], acc => acc
  | .item s :: rest, acc => drainResults rest (acc ++ [s])
  | .empty :: _, acc => acc
  | .raised _ :: _, _ => []

/-- `DistributedTestRunner.get_all_results` over a sequence of store
responses. -/
def get_all_results (pops : List PopOutcome) : List String :=
  drainResults pops []

/-- A task dictionary as read by the worker (`task.get("timeout", 300)`:
the key may be absent). -/
structure WTask where
  task_id : String
  test_file : String
  test_name : String
  timeout : Option Nat
  deriving DecidableEq, Inhabited

/-- Outcome of the external `subprocess.run` call on a pytest command:
normal completion with a return code, `TimeoutExpired`, or any other
exception. -/
inductive ProcOutcome where
  | completed (returncode : Int)
  | timedOut
  | raised (msg : String)
  deriving DecidableEq

/-- The result dictionary built by `DistributedTestRunner.execute_task`. -/
structure ExecResult where
  task_id : String
  node_id : String
  test_file : String
  test_name : String
  status : String
  error : Option String
  return_code : Option Int
  deriving DecidableEq

/-- `DistributedTestRunner.execute_task`: the subprocess is run with
`timeout=task.get("timeout", 300)`; return code 0 is classified `passed` and
any other return code `failed`; `subprocess.TimeoutExpired` is caught and
classified `timeout`; any other exception is caught and classified `error`.
The external call is an input `run`, a function of the timeout value passed
to it.  `execute_task` is total: no exception propagates to the caller. -/
def execute_task (node_id : String) (task : WTask) (run : Nat → ProcOutcome) : ExecResult :=
  let base : ExecResult :=
    { task_id := task.task_id
      node_id := node_id
      test_file := task.test_file
      test_name := task.test_name
      status := "unknown"
      error := none
      return_code := none }
  match run (task.timeout.getD 300) with
  | .completed rc =>
      { base with
        status := if rc == 0 then "passed" else "failed"
        return_code := some rc }
  | .timedOut => { base with status := "timeout", error := some "测试执行超时" }
  | .raised e => { base with status := "error", error := some e }

/-- Python truthiness of the optional `max_tasks` argument of
`DistributedTestRunner.run_worker` (`if max_tasks and ...`): `None` and `0`
are falsy. -/
def truthyInt (k : Option Int) : Bool :=
  match k with
  | none => false
  | some k => k != 0

/-- The worker loop of `DistributedTestRunner.run_worker`, counting executed
tasks: each iteration first checks `if max_tasks and tasks_executed >=
max_tasks: break`, then pops (the observed sequence of pop results is the
input `polls`); a popped task is executed and counted, an empty poll just
waits.  Returns the final `tasks_executed`. -/
def workerLoop (max_tasks : Option Int) : List (Option WTask) → Nat → Nat
  | [], tasks_executed => tasks_executed
  | p :: rest, tasks_executed =>
    if truthyInt max_tasks && decide ((tasks_executed : Int) ≥ max_tasks.getD 0) then
      tasks_executed
    else
      match p with
      | some _ => workerLoop max_tasks rest (tasks_executed + 1)
      | none => workerLoop max_tasks rest tasks_executed

/-- `DistributedTestRunner.run_worker` (node registration and heartbeat are
side effects outside the model): number of tasks executed over the observed
poll sequence. -/
def run_worker (max_tasks : Option Int) (polls : List (Option WTask)) : Nat :=
  workerLoop max_tasks polls 0

/-! ## Controller (`run_distributed_tests.py`) -/

/-- How an observed prefix of the wait loop of
`DistributedTestController.wait_for_completion` ends: exit through the
timeout check, exit declaring completion (each carrying the number of loop
iterations consumed), or the observed prefix ran out with the loop still
going (carrying the current `no_change_count`). -/
inductive WaitOutcome where
  | timedOut (polls : Nat)
  | completed (polls : Nat)
  | ranOut (no_change_count : Nat)
  deriving DecidableEq

/-- Add `n` earlier iterations to an outcome's iteration count. -/
def bumpPolls (n : Nat) : WaitOutcome → WaitOutcome
  | .timedOut k => .timedOut (n + k)
  | .completed k => .completed (n + k)
  | .ranOut c => .ranOut c

/-- One observed iteration of the wait loop: the elapsed time computed at the
top of the body, and the store's answer to the `llen` behind
`get_queue_size`. -/
abbrev WaitObs := Nat × StoreRead Nat

/-- The loop body of `DistributedTestController.wait_for_completion` over an
observed sequence of iterations: break on `elapsed > timeout`; otherwise read
`queue_size = get_queue_size()`; if it is `0` then break (completion) when
`no_change_count >= 3` and otherwise increment `no_change_count`; a non-zero
read resets `no_change_count` to `0`. -/
def wait_loop (timeout : Nat) : List WaitObs → Nat → WaitOutcome
  | [], no_change_count => .ranOut no_change_count
  | (elapsed, store) :: rest, no_change_count =>
    if elapsed > timeout then .timedOut 0
    else
      let queue_size := get_queue_size store
      if queue_size = 0 then
        if no_change_count ≥ 3 then .completed 1
        else bumpPolls 1 (wait_loop timeout rest (no_change_count + 1))
      else bumpPolls 1 (wait_loop timeout rest 0)

/-- `DistributedTestController.wait_for_completion` starts the loop with
`no_change_count = 0`. -/
def wait_for_completion (timeout : Nat) (obs : List WaitObs) : WaitOutcome :=
  wait_loop timeout obs 0

/-- The `failed` count of the report summary built by
`DistributedTestController.generate_report`: results whose `status` is
`"failed"`. -/
def report_failed (results : List ExecResult) : Nat :=
  results.countP (fun r => r.status == "failed")

/-- The `error` count of the report summary built by
`DistributedTestController.generate_report`. -/
def report_error (results : List ExecResult) : Nat :=
  results.countP (fun r => r.status == "error")

/-- The exit code chosen at the end of controller mode in `main`:
`sys.exit(1)` when the report has `failed > 0 or error > 0`, else
`sys.exit(0)`. -/
def controller_exit_code (results : List ExecResult) : Nat :=
  if report_failed results > 0 || report_error results > 0 then 1 else 0

/-! ## Sample records used to instantiate hypotheses on concrete inputs -/

/-- A record marked only `integration`. -/
def sampleIntegrationTest : TestRecord :=
  { test_id := "id-integration"
    test_file := "tests/api/test_payment.py"
    test_name := "test_refund"
    full_name := "tests/api/test_payment.py::test_refund"
    class_name := none
    markers := ["integration"] }

/-- A record marked only `slow`. -/
def sampleSlowTest : TestRecord :=
  { test_id := "id-slow"
    test_file := "tests/api/test_upload.py"
    test_name := "test_big_upload"
    full_name := "tests/api/test_upload.py::test_big_upload"
    class_name := none
    markers := ["slow"] }

/-- A record marked `api` whose file path lives under `tests/web/`. -/
def apiMarkedWebTest : TestRecord :=
  { test_id := "id-api-web"
    test_file := "tests/web/test_login.py"
    test_name := "test_login_ok"
    full_name := "tests/web/test_login.py::test_login_ok"
    class_name := none
    markers := ["api"] }

/-- A first sample worker task without an explicit timeout key. -/
def sampleWTask1 : WTask :=
  { task_id := "t1"
    test_file := "tests/test_a.py"
    test_name := "test_one"
    timeout := none }

/-- A second sample worker task without an explicit timeout key. -/
def sampleWTask2 : WTask :=
  { task_id := "t2"
    test_file := "tests/test_a.py"
    test_name := "test_two"
    timeout := none }

/-! ## Theorems -/

/-- C7: `estimate_test_duration` is the base 5.0 seconds times 3 when marked
`slow`, times 2 when marked `integration`, times 1.5 when marked `web` and
times 0.8 when marked `api`; the factors compose multiplicatively when
several of these markers are present, and the closed form depends on no
other marker. -/
theorem estimate_test_duration_closed_form (test : TestRecord) :
    estimate_test_duration test =
      5 * (if test.markers.contains "slow" then 3 else 1)
        * (if test.markers.contains "integration" then 2 else 1)
        * (if test.markers.contains "web" then 3/2 else 1)
        * (if test.markers.contains "api" then 4/5 else 1) := by
  unfold estimate_test_duration
  split_ifs <;> ring

/-- C2: `execute_task` classifies a completed subprocess with return code 0
as `passed` and any non-zero return code as `failed`, a `TimeoutExpired` of
the external call (which is run with `timeout = task.get("timeout", 300)`)
as `timeout`, and any other exception as `error`; `execute_task` is a total
function of the outcome, so in the timeout and error cases no exception
propagates to the caller. -/
theorem execute_task_classification (node_id : String) (task : WTask)
    (run : Nat → ProcOutcome) :
    (execute_task node_id task run).status =
      match run (task.timeout.getD 300) with
      | .completed rc => if rc = 0 then "passed" else "failed"
      | .timedOut => "timeout"
      | .raised _ => "error" := by
  unfold execute_task
  cases h : run (task.timeout.getD 300) <;> simp

/-- C3: in controller mode the process exit code is `0` if and only if the
drained result set has zero results with status `failed` and zero with
status `error`; in particular results with status `timeout` leave the exit
code at `0`. -/
theorem controller_exit_code_zero_iff (results : List ExecResult) :
    controller_exit_code results = 0 ↔
      report_failed results = 0 ∧ report_error results = 0 := by
  unfold controller_exit_code
  rcases Nat.eq_zero_or_pos (report_failed results) with ha | ha <;>
    rcases Nat.eq_zero_or_pos (report_error results) with hb | hb <;>
      simp_all <;> omega

/-- Draining a prefix of successful pops shifts them into the accumulator. -/
theorem drainResults_map_item (rs : List String) (tail : List PopOutcome)
    (acc : List String) :
    drainResults (rs.map PopOutcome.item ++ tail) acc = drainResults tail (acc ++ rs) := by
  induction rs generalizing acc with
  | nil => simp
  | cons r rs ih =>
    show drainResults (PopOutcome.item r :: (rs.map PopOutcome.item ++ tail)) acc =
      drainResults tail (acc ++ r :: rs)
    rw [drainResults, ih]
    simp

/-- C9: if a store error is raised at any point while `get_all_results` is
draining, the call returns `[]`, discarding every result popped so far in
that call; a clean drain of the same prefix would have returned exactly
those results, and an empty channel also returns `[]`, so the caller cannot
tell the outcomes apart. -/
theorem get_all_results_error_discards (rs : List String) (e : String)
    (rest : List PopOutcome) :
    get_all_results (rs.map PopOutcome.item ++ PopOutcome.raised e :: rest) = [] ∧
    get_all_results (rs.map PopOutcome.item ++ [PopOutcome.empty]) = rs ∧
    get_all_results [PopOutcome.empty] = [] := by
  refine ⟨?_, ?_, rfl⟩
  · unfold get_all_results
    rw [drainResults_map_item]
    rfl
  · unfold get_all_results
    rw [drainResults_map_item]
    simp [drainResults]

/-- C10: `get_queue_size` returns `0` whenever the underlying store read
raises, the same value as for an empty task queue, so at the interface the
Controller polls a store outage is indistinguishable from an empty queue;
four consecutive failed reads drive the wait loop to declare completion
exactly as four empty-queue reads do. -/
theorem get_queue_size_outage_as_empty :
    (∀ e : String, get_queue_size (Except.error e) = 0) ∧
    (∀ e : String, get_queue_size (Except.error e) = get_queue_size (Except.ok 0)) ∧
    wait_for_completion 3600
        [(0, Except.error "connection refused"), (5, Except.error "connection refused"),
         (10, Except.error "connection refused"), (15, Except.error "connection refused")] =
      WaitOutcome.completed 4 := by
  refine ⟨fun _ => rfl, fun _ => rfl, ?_⟩
  rfl

/-- C6: every collected record is mapped by `create_tasks` to a task whose
timeout is 300 seconds by default, 600 when the record is marked `slow`
(and not `integration`), and 900 whenever it is marked `integration` (the
code lets `integration` win when both markers are present, which the claim
leaves open). -/
theorem create_tasks_timeout (tests : List TestRecord) (priority : String)
    (test : TestRecord) (h : test ∈ tests) :
    ∃ tk ∈ create_tasks tests priority,
      tk.task_id = test.test_id ∧ tk.test_name = test.test_name ∧
      (test.markers.contains "slow" = false → test.markers.contains "integration" = false →
        tk.timeout = 300) ∧
      (test.markers.contains "slow" = true → test.markers.contains "integration" = false →
        tk.timeout = 600) ∧
      (test.markers.contains "integration" = true → tk.timeout = 900) := by
  refine ⟨create_task priority test, List.mem_map_of_mem _ h, rfl, rfl, ?_, ?_, ?_⟩
  · intro h1 h2
    have h1' : "slow" ∉ test.markers := by simpa using h1
    have h2' : "integration" ∉ test.markers := by simpa using h2
    simp [create_task, h1', h2']
  · intro h1 h2
    have h1' : "slow" ∈ test.markers := by simpa using h1
    have h2' : "integration" ∉ test.markers := by simpa using h2
    simp [create_task, h1', h2']
  · intro h1
    have h1' : "integration" ∈ test.markers := by simpa using h1
    simp [create_task, h1']

/-- Instantiation of C6 on concrete records: a test marked only
`integration` gets timeout 900 from `create_tasks`. -/
theorem create_tasks_timeout_witness :
    ∃ tk ∈ create_tasks [sampleIntegrationTest] "normal",
      tk.task_id = sampleIntegrationTest.test_id ∧
      tk.test_name = sampleIntegrationTest.test_name ∧
      (sampleIntegrationTest.markers.contains "slow" = false →
        sampleIntegrationTest.markers.contains "integration" = false → tk.timeout = 300) ∧
      (sampleIntegrationTest.markers.contains "slow" = true →
        sampleIntegrationTest.markers.contains "integration" = false → tk.timeout = 600) ∧
      (sampleIntegrationTest.markers.contains "integration" = true → tk.timeout = 900) :=
  create_tasks_timeout [sampleIntegrationTest] "normal" sampleIntegrationTest
    (List.mem_singleton.mpr rfl)

/-- C8 counterexample: with `test_type = "api"` and no marker filter, a test
marked `api` that lives in `tests/web/test_login.py` is kept by
`_filter_tests` even though `"api"` is not a substring of its file path, so
membership in the returned list is not equivalent to the substring test
alone. -/
theorem filter_tests_substring_only_counterexample :
    filter_tests [apiMarkedWebTest] none (some "api") = [apiMarkedWebTest] ∧
    pyInStr "api" apiMarkedWebTest.test_file = false := by
  constructor
  · rfl
  · rfl

/-- C8 (amended): with a truthy `test_type` and no marker filter, a parsed
record appears in the list returned by `_filter_tests` if and only if
`test_type` is one of the record's markers or a substring of its file
path. -/
theorem filter_tests_type_filter (tests : List TestRecord) (tt : String)
    (t : TestRecord) (h : tt ≠ "") :
    t ∈ filter_tests tests none (some tt) ↔
      t ∈ tests ∧ (t.markers.contains tt || pyInStr tt t.test_file) = true := by
  have htt : truthyStr (some tt) = true := by
    simp [truthyStr, h]
  simp [filter_tests, truthyList, htt, List.mem_filter]

/-- Instantiation of C8 (amended) on a concrete record and type filter. -/
theorem filter_tests_type_filter_witness :
    apiMarkedWebTest ∈ filter_tests [apiMarkedWebTest] none (some "api") ↔
      apiMarkedWebTest ∈ [apiMarkedWebTest] ∧
        (apiMarkedWebTest.markers.contains "api" ||
          pyInStr "api" apiMarkedWebTest.test_file) = true :=
  filter_tests_type_filter [apiMarkedWebTest] "api" apiMarkedWebTest (by decide)

/-- The worker loop never grows its executed-task count beyond a positive
`max_tasks` cap once the count has reached it. -/
theorem workerLoop_le_cap (n : Nat) (hn : 1 ≤ n) :
    ∀ (polls : List (Option WTask)) (acc : Nat), acc ≤ n →
      workerLoop (some (n : Int)) polls acc ≤ n := by
  intro polls
  induction polls with
  | nil =>
    intro acc hacc
    simpa [workerLoop] using hacc
  | cons p rest ih =>
    intro acc hacc
    have htr : truthyInt (some (n : Int)) = true := by
      simp [truthyInt]
      omega
    unfold workerLoop
    by_cases hge : (acc : Int) ≥ (n : Int)
    · rw [if_pos]
      · exact hacc
      · simp [htr]
        omega
    · have hlt : acc < n := by
        omega
      rw [if_neg]
      · cases p with
        | some _ => exact ih (acc + 1) (by omega)
        | none => exact ih acc hacc
      · simp [htr]
        omega

/-- C4 counterexample: a worker invoked with `max_tasks = 0` executes a task
anyway (`if max_tasks and ...` treats `0` as falsy, so the cap is never
checked), contradicting "at most `n` tasks for any `n >= 0`". -/
theorem run_worker_zero_cap_counterexample :
    run_worker (some 0) [some sampleWTask1] = 1 := by
  rfl

/-- C4 (amended): for every worker invocation with `max_tasks = n` for an
integer `n >= 1`, the worker executes at most `n` tasks; `max_tasks = 0` is
falsy in Python and behaves exactly like `max_tasks = None`, imposing no
cap at all. -/
theorem run_worker_max_tasks_cap :
    (∀ (n : Nat) (polls : List (Option WTask)), 1 ≤ n →
        run_worker (some (n : Int)) polls ≤ n) ∧
    (∀ polls : List (Option WTask), run_worker (some 0) polls = run_worker none polls) := by
  constructor
  · intro n polls hn
    exact workerLoop_le_cap n hn polls 0 (Nat.zero_le n)
  · intro polls
    unfold run_worker
    generalize 0 = acc
    induction polls generalizing acc with
    | nil => rfl
    | cons p rest ih =>
      cases p <;> simp [workerLoop, truthyInt, ih]

/-- Instantiation of C4 (amended): a cap of 1 stops the worker after one of
the two available tasks. -/
theorem run_worker_max_tasks_cap_witness :
    run_worker (some ((1 : Nat) : Int)) [some sampleWTask1, some sampleWTask2] ≤ 1 :=
  run_worker_max_tasks_cap.1 1 [some sampleWTask1, some sampleWTask2] (by decide)

/-- Shifting iteration counts composes additively. -/
theorem bumpPolls_bumpPolls (m n : Nat) (o : WaitOutcome) :
    bumpPolls m (bumpPolls n o) = bumpPolls (m + n) o := by
  cases o <;> simp [bumpPolls, Nat.add_assoc]

/-- Shifting by zero iterations is the identity. -/
theorem bumpPolls_zero (o : WaitOutcome) : bumpPolls 0 o = o := by
  cases o <;> simp [bumpPolls]

/-- Unfolding the wait loop on an iteration whose elapsed time exceeds the
timeout. -/
theorem wait_loop_cons_timeout (T e : Nat) (s : StoreRead Nat) (rest : List WaitObs)
    (c : Nat) (he : e > T) :
    wait_loop T ((e, s) :: rest) c = .timedOut 0 := by
  simp only [wait_loop]
  rw [if_pos he]

/-- Unfolding the wait loop on an in-time zero read with the debounce counter
at its threshold: completion. -/
theorem wait_loop_cons_break (T e : Nat) (s : StoreRead Nat) (rest : List WaitObs)
    (c : Nat) (he : ¬ e > T) (hq : get_queue_size s = 0) (hc : c ≥ 3) :
    wait_loop T ((e, s) :: rest) c = .completed 1 := by
  simp only [wait_loop]
  rw [if_neg he]
  simp only [hq, if_true, hc, if_pos]

/-- Unfolding the wait loop on an in-time zero read below the debounce
threshold: the counter is incremented. -/
theorem wait_loop_cons_zero (T e : Nat) (s : StoreRead Nat) (rest : List WaitObs)
    (c : Nat) (he : ¬ e > T) (hq : get_queue_size s = 0) (hc : ¬ c ≥ 3) :
    wait_loop T ((e, s) :: rest) c = bumpPolls 1 (wait_loop T rest (c + 1)) := by
  simp only [wait_loop]
  rw [if_neg he]
  simp only [hq, if_true, hc, if_false]

/-- Unfolding the wait loop on an in-time non-zero read: the counter is
reset to 0. -/
theorem wait_loop_cons_nonzero (T e : Nat) (s : StoreRead Nat) (rest : List WaitObs)
    (c : Nat) (he : ¬ e > T) (hq : ¬ get_queue_size s = 0) :
    wait_loop T ((e, s) :: rest) c = bumpPolls 1 (wait_loop T rest 0) := by
  simp only [wait_loop]
  rw [if_neg he]
  simp only [hq, if_false]

/-- The wait loop over a concatenation of observation prefixes: the second
prefix only matters when the first ran out, and then its iteration counts
are shifted by the length of the first. -/
theorem wait_loop_append (T : Nat) (xs ys : List WaitObs) :
    ∀ c : Nat, wait_loop T (xs ++ ys) c =
      match wait_loop T xs c with
      | .ranOut c' => bumpPolls xs.length (wait_loop T ys c')
      | o => o := by
  induction xs with
  | nil =>
    intro c
    simp [wait_loop, bumpPolls_zero]
  | cons x rest ih =>
    intro c
    obtain ⟨e, s⟩ := x
    rw [List.cons_append]
    by_cases he : e > T
    · rw [wait_loop_cons_timeout T e s (rest ++ ys) c he,
        wait_loop_cons_timeout T e s rest c he]
    · by_cases hq : get_queue_size s = 0
      · by_cases hc : c ≥ 3
        · rw [wait_loop_cons_break T e s (rest ++ ys) c he hq hc,
            wait_loop_cons_break T e s rest c he hq hc]
        · rw [wait_loop_cons_zero T e s (rest ++ ys) c he hq hc,
            wait_loop_cons_zero T e s rest c he hq hc, ih (c + 1)]
          cases wait_loop T rest (c + 1) with
          | timedOut k => rfl
          | completed k => rfl
          | ranOut c' =>
            show bumpPolls 1 (bumpPolls rest.length (wait_loop T ys c')) =
              bumpPolls ((e, s) :: rest).length (wait_loop T ys c')
            rw [bumpPolls_bumpPolls, List.length_cons, Nat.add_comm 1 rest.length]
      · rw [wait_loop_cons_nonzero T e s (rest ++ ys) c he hq,
          wait_loop_cons_nonzero T e s rest c he hq, ih 0]
        cases wait_loop T rest 0 with
        | timedOut k => rfl
        | completed k => rfl
        | ranOut c' =>
          show bumpPolls 1 (bumpPolls rest.length (wait_loop T ys c')) =
            bumpPolls ((e, s) :: rest).length (wait_loop T ys c')
          rw [bumpPolls_bumpPolls, List.length_cons, Nat.add_comm 1 rest.length]

/-- If the wait loop, started with a debounce counter `c ≤ 3`, exits by
completion after consuming `n` observations, then `c + n ≥ 4` and every one
of the last four consumed observations (all of them, when `n < 4`) read
queue size `0`. -/
theorem wait_loop_completed_zeros (T : Nat) :
    ∀ (obs : List WaitObs) (c n : Nat), c ≤ 3 →
      wait_loop T obs c = .completed n →
      4 ≤ c + n ∧
        ((obs.take n).drop (n - 4)).all (fun p => get_queue_size p.2 == 0) = true := by
  intro obs
  induction obs with
  | nil =>
    intro c n _ h
    simp [wait_loop] at h
  | cons x rest ih =>
    intro c n hc h
    obtain ⟨e, s⟩ := x
    by_cases he : e > T
    · rw [wait_loop_cons_timeout T e s rest c he] at h
      exact absurd h (by simp)
    · by_cases hq : get_queue_size s = 0
      · by_cases hc3 : c ≥ 3
        · rw [wait_loop_cons_break T e s rest c he hq hc3] at h
          have hn : n = 1 := by
            cases h
            rfl
          subst hn
          refine ⟨by omega, ?_⟩
          simp [hq]
        · rw [wait_loop_cons_zero T e s rest c he hq hc3] at h
          cases hw : wait_loop T rest (c + 1) with
          | timedOut k => rw [hw] at h; exact absurd h (by simp [bumpPolls])
          | ranOut c' => rw [hw] at h; exact absurd h (by simp [bumpPolls])
          | completed m =>
            rw [hw] at h
            have hn : n = 1 + m := by
              cases h
              rfl
            subst hn
            obtain ⟨ihm, ihz⟩ := ih (c + 1) m (by omega) hw
            refine ⟨by omega, ?_⟩
            rw [Nat.add_comm 1 m, List.take_succ_cons]
            by_cases hm : m ≤ 3
            · have h40 : m + 1 - 4 = 0 := by omega
              have h40' : m - 4 = 0 := by omega
              rw [h40' , List.drop_zero] at ihz
              rw [h40, List.drop_zero, List.all_cons, ihz]
              simp [hq]
            · have h4 : m + 1 - 4 = (m - 4) + 1 := by omega
              rw [h4, List.drop_succ_cons]
              exact ihz
      · rw [wait_loop_cons_nonzero T e s rest c he hq] at h
        cases hw : wait_loop T rest 0 with
        | timedOut k => rw [hw] at h; exact absurd h (by simp [bumpPolls])
        | ranOut c' => rw [hw] at h; exact absurd h (by simp [bumpPolls])
        | completed m =>
          rw [hw] at h
          have hn : n = 1 + m := by
            cases h
            rfl
          subst hn
          obtain ⟨ihm, ihz⟩ := ih 0 m (by omega) hw
          refine ⟨by omega, ?_⟩
          rw [Nat.add_comm 1 m, List.take_succ_cons]
          have h4 : m + 1 - 4 = (m - 4) + 1 := by omega
          rw [h4, List.drop_succ_cons]
          exact ihz

/-- Four in-time zero reads from a fresh debounce counter drive the loop to
declare completion on exactly the fourth read. -/
theorem wait_loop_four_zeros (T e1 e2 e3 e4 : Nat)
    (h1 : e1 ≤ T) (h2 : e2 ≤ T) (h3 : e3 ≤ T) (h4 : e4 ≤ T) :
    wait_loop T [(e1, Except.ok 0), (e2, Except.ok 0), (e3, Except.ok 0), (e4, Except.ok 0)] 0 =
      .completed 4 := by
  have g1 : ¬ e1 > T := by omega
  have g2 : ¬ e2 > T := by omega
  have g3 : ¬ e3 > T := by omega
  have g4 : ¬ e4 > T := by omega
  simp [wait_loop, get_queue_size, g1, g2, g3, g4, bumpPolls]

/-- C1 (amended): in every run of the wait loop not cut short by the overall
timeout, completion is declared only upon the fourth consecutive poll
reading queue size 0 (the counter starts at 0 and the break needs
`no_change_count >= 3`, reached on the fourth consecutive zero read): a
completion exit after `n` polls forces `n ≥ 4` with the last four polls all
reading 0, and whenever the loop is still running with a fresh counter,
four consecutive in-time zero reads make it exit by completion exactly on
the fourth. -/
theorem wait_for_completion_fourth_zero :
    (∀ (T : Nat) (obs : List WaitObs) (n : Nat),
        wait_for_completion T obs = .completed n →
        4 ≤ n ∧
          ((obs.take n).drop (n - 4)).all (fun p => get_queue_size p.2 == 0) = true) ∧
    (∀ (T : Nat) (pre : List WaitObs) (e1 e2 e3 e4 : Nat),
        wait_for_completion T pre = .ranOut 0 →
        e1 ≤ T → e2 ≤ T → e3 ≤ T → e4 ≤ T →
        wait_for_completion T
            (pre ++ [(e1, Except.ok 0), (e2, Except.ok 0), (e3, Except.ok 0),
              (e4, Except.ok 0)]) =
          .completed (pre.length + 4)) := by
  constructor
  · intro T obs n h
    have := wait_loop_completed_zeros T obs 0 n (by omega) h
    exact ⟨by omega, this.2⟩
  · intro T pre e1 e2 e3 e4 hpre h1 h2 h3 h4
    unfold wait_for_completion at hpre ⊢
    rw [wait_loop_append, hpre]
    show bumpPolls pre.length
      (wait_loop T [(e1, Except.ok 0), (e2, Except.ok 0), (e3, Except.ok 0),
        (e4, Except.ok 0)] 0) = .completed (pre.length + 4)
    rw [wait_loop_four_zeros T e1 e2 e3 e4 h1 h2 h3 h4]
    rfl

/-- Instantiation of C1 (amended): four consecutive in-time zero reads are a
completed run whose last four polls all read 0. -/
theorem wait_for_completion_fourth_zero_witness :
    4 ≤ 4 ∧
      ((([((0 : Nat), Except.ok (0 : Nat)), (5, Except.ok 0), (10, Except.ok 0),
          (15, Except.ok 0)].take 4).drop (4 - 4)).all
        (fun p => get_queue_size p.2 == 0)) = true :=
  wait_for_completion_fourth_zero.1 3600
    [(0, Except.ok 0), (5, Except.ok 0), (10, Except.ok 0), (15, Except.ok 0)] 4 (by decide)

/-- C1 counterexample: with the timeout far away, three consecutive polls
reading queue size 0 leave the wait loop still running (the debounce
counter has only reached 3), while the fourth consecutive zero poll is the
one that exits by completion; so the loop does not exit upon the third
consecutive zero read. -/
theorem wait_for_completion_third_zero_counterexample :
    wait_for_completion 3600 [(0, Except.ok 0), (5, Except.ok 0), (10, Except.ok 0)] =
      WaitOutcome.ranOut 3 ∧
    wait_for_completion 3600
        [(0, Except.ok 0), (5, Except.ok 0), (10, Except.ok 0), (15, Except.ok 0)] =
      WaitOutcome.completed 4 := by
  exact ⟨rfl, rfl⟩

/-- `minWithIdx` always finds a minimum in a non-empty list. -/
theorem minWithIdx_cons_isSome (x : ℚ) (xs : List ℚ) :
    ∃ p, minWithIdx (x :: xs) = some p := by
  cases h : minWithIdx xs with
  | none => exact ⟨(0, x), by simp [minWithIdx, h]⟩
  | some p =>
    obtain ⟨j, v⟩ := p
    by_cases hx : x ≤ v
    · exact ⟨(0, x), by simp [minWithIdx, h, hx]⟩
    · exact ⟨(j + 1, v), by simp [minWithIdx, h, hx]⟩

/-- The index returned by `minWithIdx` points at its returned value, and that
value is a lower bound of the whole list: the bucket picked by the greedy
step has minimal accumulated total. -/
theorem minWithIdx_spec :
    ∀ (l : List ℚ) (j : Nat) (v : ℚ), minWithIdx l = some (j, v) →
      l[j]? = some v ∧ ∀ q ∈ l, v ≤ q := by
  intro l
  induction l with
  | nil =>
    intro j v h
    simp [minWithIdx] at h
  | cons x xs ih =>
    intro j v h
    rw [minWithIdx] at h
    cases hm : minWithIdx xs with
    | none =>
      rw [hm] at h
      dsimp only at h
      simp only [Option.some.injEq, Prod.mk.injEq] at h
      obtain ⟨hj, hv⟩ := h
      subst hj
      subst hv
      have hxs : xs = [] := by
        cases xs with
        | nil => rfl
        | cons y ys =>
          obtain ⟨p, hp⟩ := minWithIdx_cons_isSome y ys
          rw [hp] at hm
          cases hm
      subst hxs
      refine ⟨rfl, ?_⟩
      intro q hq
      have hqx : q = x := by simpa using hq
      subst hqx
      exact le_refl q
    | some p =>
      obtain ⟨j', v'⟩ := p
      rw [hm] at h
      dsimp only at h
      obtain ⟨hj', hall⟩ := ih j' v' hm
      by_cases hx : x ≤ v'
      · rw [if_pos hx] at h
        simp only [Option.some.injEq, Prod.mk.injEq] at h
        obtain ⟨hj, hv⟩ := h
        subst hj
        subst hv
        refine ⟨by simp, ?_⟩
        intro q hq
        rcases List.mem_cons.mp hq with hqx | hqxs
        · subst hqx
          exact le_refl q
        · exact le_trans hx (hall q hqxs)
      · rw [if_neg hx] at h
        simp only [Option.some.injEq, Prod.mk.injEq] at h
        obtain ⟨hj, hv⟩ := h
        subst hj
        subst hv
        refine ⟨by simpa using hj', ?_⟩
        intro q hq
        rcases List.mem_cons.mp hq with hqx | hqxs
        · subst hqx
          exact le_of_lt (lt_of_not_le hx)
        · exact hall q hqxs

/-- The greedy step does not change the number of buckets. -/
theorem assignMin_length (ws : List WorkerBucket) (t : TestRecord) (d : ℚ) :
    (assignMin ws t d).length = ws.length := by
  unfold assignMin
  cases hm : minWithIdx (ws.map (·.total_time)) with
  | none => rfl
  | some p =>
    obtain ⟨j, v⟩ := p
    simp [List.length_set]

/-- Total number of assigned tests across all buckets. -/
def bucketSizes (ws : List WorkerBucket) : Nat :=
  (ws.map (fun w => w.tests.length)).sum

/-- Replacing the bucket at an in-range index exchanges its size for the new
bucket's size in the total. -/
theorem bucketSizes_set :
    ∀ (ws : List WorkerBucket) (j : Nat) (b : WorkerBucket), j < ws.length →
      bucketSizes (ws.set j b) + (ws.getD j default).tests.length =
        bucketSizes ws + b.tests.length := by
  intro ws
  induction ws with
  | nil =>
    intro j b h
    simp at h
  | cons w ws ih =>
    intro j b h
    cases j with
    | zero =>
      simp only [List.set_cons_zero, bucketSizes, List.map_cons, List.sum_cons,
        List.getD_cons_zero]
      omega
    | succ j =>
      have h' : j < ws.length := by simpa using h
      have := ih j b h'
      simp only [List.set_cons_succ, bucketSizes, List.map_cons, List.sum_cons,
        List.getD_cons_succ] at this ⊢
      omega

/-- The greedy step adds exactly one test to the total bucket content. -/
theorem assignMin_bucketSizes (ws : List WorkerBucket) (t : TestRecord) (d : ℚ)
    (h : ws ≠ []) :
    bucketSizes (assignMin ws t d) = bucketSizes ws + 1 := by
  unfold assignMin
  cases hm : minWithIdx (ws.map (·.total_time)) with
  | none =>
    cases ws with
    | nil => exact absurd rfl h
    | cons w ws' =>
      obtain ⟨p, hp⟩ := minWithIdx_cons_isSome w.total_time (ws'.map (·.total_time))
      rw [List.map_cons, hp] at hm
      cases hm
  | some p =>
    obtain ⟨j, v⟩ := p
    have hj : j < ws.length := by
      have hget := (minWithIdx_spec _ j v hm).1
      by_contra hlt
      rw [List.getElem?_eq_none (by simpa using Nat.le_of_not_lt hlt)] at hget
      cases hget
    have hset := bucketSizes_set ws j
      { tests := (ws.getD j default).tests ++ [t]
        total_time := (ws.getD j default).total_time + d } hj
    simp only [List.length_append, List.length_cons, List.length_nil] at hset
    show bucketSizes (ws.set j
      { tests := (ws.getD j default).tests ++ [t]
        total_time := (ws.getD j default).total_time + d }) = bucketSizes ws + 1
    omega

/-- Folding the greedy step over a work list preserves the number of buckets
and grows the total content by exactly the number of records processed. -/
theorem foldl_assignMin_sizes :
    ∀ (l : List (TestRecord × ℚ)) (ws : List WorkerBucket), ws ≠ [] →
      (l.foldl (fun ws td => assignMin ws td.1 td.2) ws).length = ws.length ∧
      bucketSizes (l.foldl (fun ws td => assignMin ws td.1 td.2) ws) =
        bucketSizes ws + l.length := by
  intro l
  induction l with
  | nil =>
    intro ws _
    exact ⟨rfl, by simp⟩
  | cons td rest ih =>
    intro ws h
    have hlen : (assignMin ws td.1 td.2).length = ws.length := assignMin_length ws td.1 td.2
    have hne : assignMin ws td.1 td.2 ≠ [] := by
      intro hnil
      apply h
      rw [← List.length_eq_zero, ← hlen, hnil]
      rfl
    obtain ⟨l1, l2⟩ := ih (assignMin ws td.1 td.2) hne
    refine ⟨?_, ?_⟩
    · simp only [List.foldl_cons]
      rw [l1, hlen]
    · simp only [List.foldl_cons, List.length_cons]
      rw [l2, assignMin_bucketSizes ws td.1 td.2 h]
      omega

/-- C5: for every collected list and every worker count `n ≥ 1`,
`balance_tests` returns exactly `n` buckets whose sizes sum to the number of
collected tests; the records are processed in descending order of estimated
duration (the sorted work list is pairwise non-increasing), and each greedy
step appends the record to a bucket whose accumulated estimated total is
minimal at that step (`minWithIdx`, the picker used by the step, returns an
in-range index holding a lower bound of all bucket totals). -/
theorem balance_tests_lpt (tests : List TestRecord) (n : Nat) (hn : 1 ≤ n) :
    (balance_tests tests n).length = n ∧
    ((balance_tests tests n).map List.length).sum = tests.length ∧
    List.Pairwise (fun a b => b.2 ≤ a.2) (sorted_test_durations tests) ∧
    (∀ (l : List ℚ) (j : Nat) (v : ℚ), minWithIdx l = some (j, v) →
        l[j]? = some v ∧ ∀ q ∈ l, v ≤ q) := by
  have hsorted : List.Pairwise (fun (a b : TestRecord × ℚ) => b.2 ≤ a.2)
      (sorted_test_durations tests) := by
    unfold sorted_test_durations
    have h := @List.sorted_mergeSort (TestRecord × ℚ)
      (fun a b => decide (b.2 ≤ a.2))
      (fun a b c hab hbc => by
        simp only [decide_eq_true_eq] at hab hbc ⊢
        exact le_trans hbc hab)
      (fun a b => by
        simp only [Bool.or_eq_true, decide_eq_true_eq]
        exact le_total b.2 a.2)
      (tests.map (fun t => (t, estimate_test_duration t)))
    exact h.imp (fun hab => of_decide_eq_true hab)
  refine ⟨?_, ?_, hsorted, minWithIdx_spec⟩
  · unfold balance_tests
    by_cases he : tests.isEmpty
    · simp [he]
    · rw [Bool.not_eq_true] at he
      rw [if_neg (by simp [he])]
      have hws : List.replicate n ({ tests := [], total_time := 0 } : WorkerBucket) ≠ [] := by
        apply List.length_pos.mp
        rw [List.length_replicate]
        omega
      obtain ⟨l1, _⟩ := foldl_assignMin_sizes (sorted_test_durations tests) _ hws
      simp only [List.length_map, l1, List.length_replicate]
  · unfold balance_tests
    by_cases he : tests.isEmpty
    · have : tests = [] := List.isEmpty_iff.mp he
      subst this
      simp
    · rw [Bool.not_eq_true] at he
      rw [if_neg (by simp [he])]
      have hws : List.replicate n ({ tests := [], total_time := 0 } : WorkerBucket) ≠ [] := by
        apply List.length_pos.mp
        rw [List.length_replicate]
        omega
      obtain ⟨_, l2⟩ := foldl_assignMin_sizes (sorted_test_durations tests) _ hws
      have hinit : bucketSizes
          (List.replicate n ({ tests := [], total_time := 0 } : WorkerBucket)) = 0 := by
        simp [bucketSizes, List.map_replicate, List.sum_replicate]
      have hslen : (sorted_test_durations tests).length = tests.length := by
        unfold sorted_test_durations
        rw [List.length_mergeSort, List.length_map]
      rw [List.map_map]
      show bucketSizes _ = tests.length
      rw [l2, hinit, hslen]
      omega

/-- Instantiation of C5 on two concrete records and two workers. -/
theorem balance_tests_lpt_witness :
    (balance_tests [sampleSlowTest, sampleIntegrationTest] 2).length = 2 :=
  (balance_tests_lpt [sampleSlowTest, sampleIntegrationTest] 2 (by decide)).1

end Argus
